import Mathlib

/-!
Shallow embedding of the Accident-Detector backend
(`BACKEND/services/camera_service.py`, `BACKEND/models/detector.py`,
`BACKEND/config.py`) together with proofs about the embedded code.

Frames are modelled by natural-number identifiers where only their identity
matters, wall-clock times (`time.time()`) by integers, and confidences by
rationals.  Every definition mirrors the corresponding Python function; the
Python state that a method mutates is threaded explicitly.
-/

namespace AccidentDetector


/-! ### Config (`BACKEND/config.py`) -/

/-- `Config.TARGET_CLASS = 'severe'`. -/
def TARGET_CLASS : String := "severe"

/-- `Config.FRAME_SKIP = 2` (used only by offline video processing). -/
def FRAME_SKIP : Nat := 2

/-! ### Frame ring buffer

`CameraStream.__init__` creates `self.frame_buffer = deque(maxlen=375)` and
`_capture_loop` fills it with `self.frame_buffer.append(annotated.copy())`.
A Python `deque` with `maxlen = c` discards elements from the left once an
`append` would make it longer than `c`. -/

/-- `deque.append` on a deque constructed with `maxlen = c`: the new element
goes to the right end and, if the result would exceed `c` elements, the
oldest (leftmost) elements are discarded. -/
def dequeAppend (c : Nat) (buf : List α) (x : α) : List α :=
  if c < buf.length + 1 then (buf ++ [x]).drop (buf.length + 1 - c) else buf ++ [x]

/-- `maxlen=375` from `CameraStream.__init__` (15 s of pre-roll at 25 FPS). -/
def FRAME_BUFFER_MAXLEN : Nat := 375

/-- Contents of the ring buffer after appending every element of `xs`
in order, starting from the given buffer. -/
def ringRun (c : Nat) (buf : List α) (xs : List α) : List α :=
  xs.foldl (dequeAppend c) buf

/-! ### Confirmation state machine (`CameraStream._verify_detection`)

`_capture_loop` feeds every detector outcome to this logic: a positive
frame calls `_verify_detection(confidence, bbox)` and a negative frame runs
`self.consecutive_detections = 0`.  The state mutated by those two branches
is threaded explicitly; wall-clock times (`time.time()`) are the `t`
arguments. -/

structure ConfState where
  consecutive_detections : Nat
  last_confirmed_time : Int
  confirmed_accidents : Nat
  total_detections : Nat
  deriving DecidableEq

/-- `CameraStream._verify_detection` with `required_consecutive = K`,
`cooldown_seconds = W` and `current_time = t`.  (The socket emissions have
no effect on this state and are dropped.) -/
def verify_detection (K : Nat) (W t : Int) (s : ConfState) : ConfState :=
  if K ≤ s.consecutive_detections + 1 ∧ W ≤ t - s.last_confirmed_time then
    { consecutive_detections := 0
      last_confirmed_time := t
      confirmed_accidents := s.confirmed_accidents + 1
      total_detections := s.total_detections + 1 }
  else
    { s with consecutive_detections := s.consecutive_detections + 1
             total_detections := s.total_detections + 1 }

/-- One detector outcome at time `t`: `pos = true` runs `_verify_detection`,
`pos = false` runs the `else: self.consecutive_detections = 0` branch of
`_capture_loop`. -/
def process_signal (K : Nat) (W : Int) (t : Int) (pos : Bool) (s : ConfState) :
    ConfState :=
  if pos then verify_detection K W t s
  else { s with consecutive_detections := 0 }

/-- Run the confirmation logic over a list of `(time, positive?)` signals. -/
def run_signals (K : Nat) (W : Int) (s : ConfState) (evs : List (Int × Bool)) :
    ConfState :=
  evs.foldl (fun s e => process_signal K W e.1 e.2 s) s

/-- Pair each time with a positive signal. -/
def posSignals (ts : List Int) : List (Int × Bool) :=
  ts.map (fun t => (t, true))

/-! ### Cooldown separation (C3)

To speak about the timestamps of the confirmations a run emits, the fold is
instrumented to record the time of every signal that increments
`confirmed_accidents`. -/

/-- One fold step that also records the time of a confirmation. -/
def record_step (K : Nat) (W : Int) (p : ConfState × List Int)
    (e : Int × Bool) : ConfState × List Int :=
  (process_signal K W e.1 e.2 p.1,
    if p.1.confirmed_accidents <
        (process_signal K W e.1 e.2 p.1).confirmed_accidents
    then p.2 ++ [e.1] else p.2)

/-- Final state and the chronological list of confirmation timestamps. -/
def run_confirm_times (K : Nat) (W : Int) (s : ConfState)
    (evs : List (Int × Bool)) : ConfState × List Int :=
  evs.foldl (record_step K W) (s, [])

/-! ### Evidence recording (`_start_recording` / `_save_recording`)

The per-frame body of `_capture_loop` (YOLO branch), with the recording
sub-state threaded explicitly.  `_verify_detection` triggers
`_start_recording` inside its confirmation branch; afterwards the same
iteration appends `self.current_frame` (the annotated frame) to
`recording_frames`, decrements `frames_to_record_after`, and calls
`_save_recording` when that counter reaches 0.  `_save_recording` writes
`list(self.frame_buffer) + self.recording_frames` — reading the ring buffer
at save time.  The quota 375 of `_start_recording` and the buffer capacity
375 are kept as parameters `post` and `cap`. -/

structure RecState where
  frame_buffer : List Nat
  conf : ConfState
  is_recording : Bool
  frames_to_record_after : Int
  recording_frames : List Nat
  saved_clips : List (List Nat)
  deriving DecidableEq

/-- `CameraStream._start_recording` with post-roll quota `post`. -/
def start_recording (post : Nat) (s : RecState) : RecState :=
  if s.is_recording = false then
    { s with is_recording := true
             frames_to_record_after := (post : Int)
             recording_frames := [] }
  else s

/-- `CameraStream._save_recording`: combine `list(self.frame_buffer)` (read
now, at save time) with `recording_frames` into the written clip. -/
def save_recording (s : RecState) : RecState :=
  { s with is_recording := false
           saved_clips := s.saved_clips ++ [s.frame_buffer ++ s.recording_frames]
           recording_frames := [] }

/-- `CameraStream._verify_detection`, including the `_start_recording` call
in its confirmation branch. -/
def verify_detection_rec (K : Nat) (W : Int) (post : Nat) (t : Int)
    (s : RecState) : RecState :=
  if K ≤ s.conf.consecutive_detections + 1 ∧
      W ≤ t - s.conf.last_confirmed_time then
    start_recording post
      { s with conf :=
          { consecutive_detections := 0
            last_confirmed_time := t
            confirmed_accidents := s.conf.confirmed_accidents + 1
            total_detections := s.conf.total_detections + 1 } }
  else
    { s with conf :=
        { s.conf with
            consecutive_detections := s.conf.consecutive_detections + 1
            total_detections := s.conf.total_detections + 1 } }

/-- One iteration of the inner read loop of `_capture_loop` (YOLO branch):
push the annotated frame into the ring buffer, feed the detector verdict to
the verification logic, then service an in-flight recording. -/
def process_live_frame (K : Nat) (W : Int) (cap post : Nat) (t : Int)
    (frame : Nat) (pos : Bool) (s : RecState) : RecState :=
  let s1 := { s with frame_buffer := dequeAppend cap s.frame_buffer frame }
  let s2 :=
    if pos then verify_detection_rec K W post t s1
    else { s1 with conf := { s1.conf with consecutive_detections := 0 } }
  if s2.is_recording then
    let s3 := { s2 with
      recording_frames := s2.recording_frames ++ [frame]
      frames_to_record_after := s2.frames_to_record_after - 1 }
    if s3.frames_to_record_after ≤ 0 then save_recording s3 else s3
  else s2

/-- Run the live loop over `(time, frame, positive?)` triples. -/
def run_live (K : Nat) (W : Int) (cap post : Nat)
    (evs : List (Int × Nat × Bool)) (s : RecState) : RecState :=
  evs.foldl (fun s e => process_live_frame K W cap post e.1 e.2.1 e.2.2 s) s

/-- The session state at startup (`CameraStream.__init__`). -/
def initial_rec_state : RecState :=
  { frame_buffer := []
    conf := ⟨0, 0, 0, 0⟩
    is_recording := false
    frames_to_record_after := 0
    recording_frames := []
    saved_clips := [] }

/-! ### Connection lifecycle (`_capture_loop`, lines 100–127)

The outer `while self.is_running` loop opens the RTSP source each
iteration.  On `not self.cap.isOpened()` it increments
`reconnect_attempts`, logs `(n/max)`, sleeps and `continue`s; on success it
resets the counter to 0 and enters the read loop.  `max_reconnect_attempts
= 10` is declared at the top of the loop and then appears only inside the
log string — no branch compares the counter against it. -/

/-- `max_reconnect_attempts = 10` from `_capture_loop`. -/
def max_reconnect_attempts : Nat := 10

structure ConnState where
  reconnect_attempts : Nat
  is_running : Bool
  reached_streaming : Bool
  deriving DecidableEq

/-- One iteration of the outer loop of `_capture_loop`, driven by whether
`cv2.VideoCapture(...).isOpened()` succeeds. -/
def connect_attempt (openOk : Bool) (s : ConnState) : ConnState :=
  if s.is_running = false then s
  else if openOk then
    { s with reconnect_attempts := 0, reached_streaming := true }
  else
    { s with reconnect_attempts := s.reconnect_attempts + 1 }

/-- Run the outer loop over a list of open outcomes. -/
def run_connect (opens : List Bool) (s : ConnState) : ConnState :=
  opens.foldl (fun s b => connect_attempt b s) s

/-! ### Frame sampling cadence (live loop vs. `process_video_file`)

In the inner read loop of `_capture_loop` every successfully read frame
runs `self.frame_count += 1` and then, when `use_yolo` is set,
`self.detector.detect_severe(frame)` — there is no `FRAME_SKIP` test.
Offline processing (`SevereAccidentDetector.process_video_file`) runs the
detector only when `frame_number % Config.FRAME_SKIP == 0`. -/

/-- The inner read loop on `n` successfully read frames: returns the list
of `frame_count` values at which the detector is invoked, and the final
ring buffer.  `uy` is `use_yolo`, `fc` the running `frame_count`. -/
def live_loop (uy : Bool) (cap : Nat) :
    List Nat → Nat → List Nat → List Nat × List Nat
  | [], _, buf => ([], buf)
  | f :: fs, fc, buf =>
      let r := live_loop uy cap fs (fc + 1) (dequeAppend cap buf f)
      ((if uy then [fc + 1] else []) ++ r.1, r.2)

/-- The `while` loop of `process_video_file` on `m` remaining frames with
running `frame_number = fn`: the frame numbers at which the detector is
invoked. -/
def offline_loop : Nat → Nat → List Nat
  | 0, _ => []
  | m + 1, fn =>
      (if fn % FRAME_SKIP = 0 then [fn] else []) ++ offline_loop m (fn + 1)

/-! ### Stream registry (`CameraManager`) and session start/stop

`CameraManager.active_streams` is a dict from camera id to `CameraStream`,
modelled as a key-unique association list in insertion order.  A stream's
state relevant here is its `is_running` flag and whether it still holds a
connection handle (`self.cap`). -/

structure StreamState where
  is_running : Bool
  cap : Bool
  deriving DecidableEq

/-- `CameraStream.start`: refuse if already running, otherwise set the flag
and launch the capture thread, returning `True`. -/
def stream_start (s : StreamState) : Bool × StreamState :=
  if s.is_running then (false, s)
  else (true, { s with is_running := true })

/-- `CameraStream.stop`: clear the running flag and release the capture
handle.  The Python method has no `return` statement, so its value is
`None` — modelled as `Option Bool`, always `none`. -/
def stream_stop (s : StreamState) : Option Bool × StreamState :=
  (none, { s with is_running := false, cap := false })

/-- A freshly constructed `CameraStream` (not running, no handle yet). -/
def new_stream : StreamState := { is_running := false, cap := false }

/-- `CameraManager.start_camera`: no-op returning `False` when the id is
already active or unknown to the database; otherwise construct a stream,
call `start()`, and register the stream only when `start()` returned
`True`. -/
def start_camera (db : Nat → Option Nat) (m : List (Nat × StreamState))
    (cid : Nat) : Bool × List (Nat × StreamState) :=
  if (m.lookup cid).isSome then (false, m)
  else
    match db cid with
    | none => (false, m)
    | some _ =>
        if (stream_start new_stream).1 then
          (true, m ++ [(cid, (stream_start new_stream).2)])
        else (false, m)

/-- `CameraManager.stop_camera`: `False` when the id is not active;
otherwise call the stream's `stop()` and delete the entry. -/
def stop_camera (m : List (Nat × StreamState)) (cid : Nat) :
    Bool × List (Nat × StreamState) :=
  if m.lookup cid = none then (false, m)
  else (true, m.filter (fun p => ¬ p.1 = cid))

/-- `CameraManager.get_active_cameras`: the list of registered ids. -/
def get_active_cameras (m : List (Nat × StreamState)) : List Nat :=
  m.map Prod.fst

/-! ### Detector (`SevereAccidentDetector.detect_severe`)

`detect_severe` wraps the whole body in `try/except`; on any fault it
returns `(False, 0.0, frame, None)`.  On success it scans the model's
detections in order: a detection whose resolved class name equals
`Config.TARGET_CLASS` sets `tiene_severe`, and strictly larger confidences
update `max_confidence`/`bbox`.  The model invocation and its fallibility
are a parameter (`Except`), the frame type and the `results[0].plot()`
annotation renderer are parameters, confidences are rationals and a bbox is
the `xyxy` list of rationals. -/

structure Detection where
  cls : String
  conf : ℚ
  box : List ℚ
  deriving DecidableEq

/-- The body of the `for box, conf, cls in zip(...)` loop: accumulator
`(tiene_severe, max_confidence, bbox)`. -/
def severe_fold (acc : Bool × ℚ × Option (List ℚ)) (d : Detection) :
    Bool × ℚ × Option (List ℚ) :=
  if d.cls = TARGET_CLASS then
    (true,
      if acc.2.1 < d.conf then (d.conf, some d.box) else (acc.2.1, acc.2.2))
  else acc

/-- `SevereAccidentDetector.detect_severe`.  `predict` is the outcome of
`self.model.predict(...)` plus class-name resolution (an exception anywhere
in the body lands in the `except` branch); `plot` renders
`results[0].plot()` with the `cv2.putText` banner.  Returns
`(tiene_severe, max_confidence, annotated_frame, bbox)`. -/
def detect_severe {Frame : Type} (plot : Frame → List Detection → Frame)
    (frame : Frame) (predict : Except String (List Detection)) :
    Bool × ℚ × Frame × Option (List ℚ) :=
  match predict with
  | .error _ => (false, 0, frame, none)
  | .ok dets =>
      let r := dets.foldl severe_fold (false, 0, none)
      (r.1, r.2.1, if r.1 then plot frame dets else frame, r.2.2)

/-! ## Theorems -/

theorem dequeAppend_eq_drop (c : Nat) (l : List α) (x : α) :
    dequeAppend c (l.drop (l.length - c)) x =
      (l ++ [x]).drop (l.length + 1 - c) := by
  unfold dequeAppend
  rcases lt_or_le l.length c with hlt | hle
  · -- buffer not yet full: nothing is evicted
    have h0 : l.length - c = 0 := by omega
    rw [h0, List.drop_zero, if_neg (by omega)]
    have h1 : l.length + 1 - c = 0 := by omega
    rw [h1, List.drop_zero]
  · -- buffer already holds exactly `c` elements: the oldest one is evicted
    have hb : (l.drop (l.length - c)).length = c := by
      rw [List.length_drop]; omega
    rw [hb, if_pos (Nat.lt_succ_self c)]
    have h1 : c + 1 - c = 1 := by omega
    rw [h1]
    rcases Nat.eq_zero_or_pos c with hc0 | hcpos
    · subst hc0
      have hd : l.drop (l.length - 0) = [] := by
        rw [Nat.sub_zero, List.drop_length]
      rw [hd, List.nil_append]
      have hr : (l ++ [x]).drop (l.length + 1 - 0) = [] :=
        List.drop_eq_nil_of_le (by simp)
      rw [hr]
      rfl
    · rw [List.drop_append_of_le_length (by omega : 1 ≤ (l.drop (l.length - c)).length),
        List.drop_drop]
      have h2 : l.length + 1 - c = (l.length - c) + 1 := by omega
      rw [h2, List.drop_append_of_le_length (by omega : l.length - c + 1 ≤ l.length)]

/-- Running the ring buffer from empty over `xs` keeps exactly the last
`min xs.length c` elements. -/
theorem ringRun_nil_eq (c : Nat) (xs : List α) :
    ringRun c ([] : List α) xs = xs.drop (xs.length - c) := by
  induction xs using List.reverseRecOn with
  | nil => simp [ringRun]
  | append_singleton l x ih =>
      unfold ringRun at *
      rw [List.foldl_append, ih]
      simpa [List.length_append] using dequeAppend_eq_drop c l x

/-- C5: Feeding `N` frames into a ring buffer of capacity `C`: the length is
`min N C`, the contents are the last `min N C` frames in insertion order,
and at no intermediate point does the buffer exceed capacity `C`. -/
theorem ring_buffer_last_min (c : Nat) (xs : List α) :
    (ringRun c ([] : List α) xs).length = min xs.length c ∧
      ringRun c ([] : List α) xs = xs.drop (xs.length - min xs.length c) ∧
      ∀ k : Nat, (ringRun c ([] : List α) (xs.take k)).length ≤ c := by
  refine ⟨?_, ?_, ?_⟩
  · rw [ringRun_nil_eq, List.length_drop]; omega
  · rw [ringRun_nil_eq]
    congr 1
    omega
  · intro k
    rw [ringRun_nil_eq, List.length_drop]
    omega

theorem run_signals_append (K : Nat) (W : Int) (s : ConfState)
    (e₁ e₂ : List (Int × Bool)) :
    run_signals K W s (e₁ ++ e₂) = run_signals K W (run_signals K W s e₁) e₂ :=
  List.foldl_append _ _ _ _

theorem process_signal_false (K : Nat) (W t : Int) (s : ConfState) :
    process_signal K W t false s = { s with consecutive_detections := 0 } := rfl

theorem process_signal_true (K : Nat) (W t : Int) (s : ConfState) :
    process_signal K W t true s = verify_detection K W t s := rfl

/-- Fewer positives than needed to reach the threshold: the counter just
counts up and nothing else changes. -/
theorem run_pos_no_confirm (K : Nat) (W : Int) :
    ∀ (ts : List Int) (s : ConfState),
      s.consecutive_detections + ts.length < K →
      run_signals K W s (posSignals ts) =
        { s with consecutive_detections := s.consecutive_detections + ts.length
                 total_detections := s.total_detections + ts.length } := by
  intro ts
  induction ts with
  | nil => intro s _; simp [run_signals, posSignals]
  | cons t ts ih =>
      intro s h
      simp only [List.length_cons] at h
      have hnc : ¬ (K ≤ s.consecutive_detections + 1 ∧
          W ≤ t - s.last_confirmed_time) := by
        intro hc
        exact absurd hc.1 (by omega)
      have hstep : process_signal K W t true s =
          { s with consecutive_detections := s.consecutive_detections + 1
                   total_detections := s.total_detections + 1 } := by
        rw [process_signal_true]
        unfold verify_detection
        rw [if_neg hnc]
      have hrec := ih
        { s with consecutive_detections := s.consecutive_detections + 1
                 total_detections := s.total_detections + 1 }
        (show s.consecutive_detections + 1 + ts.length < K by omega)
      show run_signals K W (process_signal K W t true s) (posSignals ts) = _
      rw [hstep, hrec]
      simp only [List.length_cons, ConfState.mk.injEq]
      refine ⟨by omega, trivial, trivial, by omega⟩

theorem verify_detection_confirm (K : Nat) (W t : Int) (s : ConfState)
    (h1 : K ≤ s.consecutive_detections + 1)
    (h2 : W ≤ t - s.last_confirmed_time) :
    verify_detection K W t s =
      { consecutive_detections := 0
        last_confirmed_time := t
        confirmed_accidents := s.confirmed_accidents + 1
        total_detections := s.total_detections + 1 } := by
  unfold verify_detection
  rw [if_pos ⟨h1, h2⟩]

/-- A run of positives that reaches the threshold exactly at its last
element, with the cooldown satisfied there, confirms at that element. -/
theorem run_pos_hits (K : Nat) (W : Int) (l : List Int) (t : Int)
    (s : ConfState)
    (hlen : s.consecutive_detections + l.length + 1 = K)
    (hc : W ≤ t - s.last_confirmed_time) :
    run_signals K W s (posSignals (l ++ [t])) =
      { consecutive_detections := 0
        last_confirmed_time := t
        confirmed_accidents := s.confirmed_accidents + 1
        total_detections := s.total_detections + l.length + 1 } := by
  have hposapp : posSignals (l ++ [t]) = posSignals l ++ [(t, true)] := by
    simp [posSignals]
  rw [hposapp, run_signals_append, run_pos_no_confirm K W l s (by omega)]
  show process_signal K W t true _ = _
  rw [process_signal_true, verify_detection_confirm]
  · show K ≤ s.consecutive_detections + l.length + 1
    omega
  · show W ≤ t - s.last_confirmed_time
    exact hc

/-- Starting with a zero counter, `K` positives whose times all satisfy the
cooldown yield exactly one more confirmation, ending with a zero counter
and `last_confirmed_time` equal to one of the fed times. -/
theorem run_pos_once_from_zero (K : Nat) (W : Int) (t0 : Int)
    (conf tot : Nat) (vs : List Int) (hK : 1 ≤ K) (hlen : vs.length = K)
    (hcool : ∀ t ∈ vs, W ≤ t - t0) :
    ∃ x ∈ vs, run_signals K W ⟨0, t0, conf, tot⟩ (posSignals vs) =
      ⟨0, x, conf + 1, tot + vs.length⟩ := by
  obtain ⟨l, x, rfl⟩ : ∃ l x, vs = l ++ [x] := by
    rcases List.eq_nil_or_concat vs with h | ⟨l, x, h⟩
    · rw [h] at hlen; simp at hlen; omega
    · exact ⟨l, x, by simpa [List.concat_eq_append] using h⟩
  refine ⟨x, by simp, ?_⟩
  have hx : W ≤ x - t0 := hcool x (by simp)
  have hlen' : l.length + 1 = K := by
    simpa using hlen
  rw [run_pos_hits K W l x ⟨0, t0, conf, tot⟩
    (show 0 + l.length + 1 = K by omega) hx]
  have hL : (l ++ [x]).length = l.length + 1 := by simp
  rw [hL]
  rfl

/-- C2: with required consecutive count `K` and the cooldown not blocking
(every positive's time is at least `W` after the initial
`last_confirmed_time`), `K` consecutive positives yield exactly one
confirmation; `K − 1` positives, one negative, then `K` more positives also
yield exactly one confirmation; and a negative signal always resets the
consecutive-positive counter to 0. -/
theorem consecutive_positive_scenarios (K : Nat) (W t0 : Int) (hK : 1 ≤ K)
    (ts us vs : List Int) (tneg : Int)
    (hts : ts.length = K) (hus : us.length = K - 1) (hvs : vs.length = K)
    (htc : ∀ t ∈ ts, W ≤ t - t0) (hvc : ∀ t ∈ vs, W ≤ t - t0) :
    (run_signals K W ⟨0, t0, 0, 0⟩ (posSignals ts)).confirmed_accidents = 1 ∧
    (run_signals K W ⟨0, t0, 0, 0⟩
        (posSignals us ++ [(tneg, false)] ++ posSignals vs)).confirmed_accidents
      = 1 ∧
    ∀ (t : Int) (s : ConfState),
      (process_signal K W t false s).consecutive_detections = 0 := by
  refine ⟨?_, ?_, fun t s => rfl⟩
  · obtain ⟨x, _, heq⟩ := run_pos_once_from_zero K W t0 0 0 ts hK hts htc
    rw [heq]
  · rw [run_signals_append, run_signals_append,
      run_pos_no_confirm K W us ⟨0, t0, 0, 0⟩
        (show (0 : Nat) + us.length < K by omega)]
    have hneg : run_signals K W
        ({ (⟨0, t0, 0, 0⟩ : ConfState) with
            consecutive_detections := 0 + us.length
            total_detections := 0 + us.length }) [(tneg, false)] =
        ⟨0, t0, 0, 0 + us.length⟩ := rfl
    rw [hneg]
    obtain ⟨x, _, heq⟩ :=
      run_pos_once_from_zero K W t0 0 (0 + us.length) vs hK hvs hvc
    rw [heq]

theorem consecutive_positive_scenarios_witness :
    ((1 : Nat) ≤ 1 ∧ ([(0 : Int)].length = 1) ∧ (([] : List Int).length = 1 - 1)
        ∧ ([(0 : Int)].length = 1) ∧ (∀ t ∈ [(0 : Int)], (0 : Int) ≤ t - 0)
        ∧ (∀ t ∈ [(0 : Int)], (0 : Int) ≤ t - 0)) ∧
    ((run_signals 1 0 ⟨0, 0, 0, 0⟩ (posSignals [0])).confirmed_accidents = 1 ∧
      (run_signals 1 0 ⟨0, 0, 0, 0⟩
          (posSignals [] ++ [(1, false)] ++ posSignals [0])).confirmed_accidents
        = 1 ∧
      ∀ (t : Int) (s : ConfState),
        (process_signal 1 0 t false s).consecutive_detections = 0) :=
  ⟨⟨by decide, by decide, by decide, by decide, by decide, by decide⟩,
    consecutive_positive_scenarios 1 0 0 (by decide) [0] [] [0] 1
      (by decide) (by decide) (by decide) (by decide) (by decide)⟩

/-- Case analysis of one signal: either nothing is confirmed and
`last_confirmed_time` is unchanged, or exactly one confirmation happens, at
a positive signal, with the threshold reached and the cooldown elapsed. -/
theorem process_signal_cases (K : Nat) (W t : Int) (b : Bool) (s : ConfState) :
    ((process_signal K W t b s).confirmed_accidents = s.confirmed_accidents ∧
      (process_signal K W t b s).last_confirmed_time =
        s.last_confirmed_time) ∨
    ((process_signal K W t b s).confirmed_accidents =
        s.confirmed_accidents + 1 ∧
      (process_signal K W t b s).last_confirmed_time = t ∧
      W ≤ t - s.last_confirmed_time ∧ b = true ∧
      K ≤ s.consecutive_detections + 1 ∧
      (process_signal K W t b s).consecutive_detections = 0) := by
  cases b
  · left; exact ⟨rfl, rfl⟩
  · rw [process_signal_true]
    unfold verify_detection
    by_cases hc : K ≤ s.consecutive_detections + 1 ∧
        W ≤ t - s.last_confirmed_time
    · rw [if_pos hc]
      right
      exact ⟨rfl, rfl, hc.2, rfl, hc.1, rfl⟩
    · rw [if_neg hc]
      left
      exact ⟨rfl, rfl⟩

theorem confirm_times_invariant (K : Nat) (W : Int) (hW : 0 ≤ W) :
    ∀ (evs : List (Int × Bool)) (s : ConfState) (acc : List Int),
      (∀ a ∈ acc, a ≤ s.last_confirmed_time) →
      acc.Pairwise (fun a b => W ≤ b - a) →
      (∀ a ∈ (evs.foldl (record_step K W) (s, acc)).2,
          a ≤ (evs.foldl (record_step K W) (s, acc)).1.last_confirmed_time) ∧
      (evs.foldl (record_step K W) (s, acc)).2.Pairwise
        (fun a b => W ≤ b - a) := by
  intro evs
  induction evs with
  | nil => intro s acc h1 h2; exact ⟨h1, h2⟩
  | cons e evs ih =>
      intro s acc h1 h2
      simp only [List.foldl_cons]
      rcases process_signal_cases K W e.1 e.2 s with
        ⟨hconf, hlast⟩ | ⟨hconf, hlast, hcool, _, _, _⟩
      · have hstep : record_step K W (s, acc) e =
            (process_signal K W e.1 e.2 s, acc) := by
          unfold record_step
          rw [if_neg (by rw [hconf]; exact lt_irrefl _)]
        rw [hstep]
        exact ih _ _ (fun a ha => hlast ▸ h1 a ha) h2
      · have hstep : record_step K W (s, acc) e =
            (process_signal K W e.1 e.2 s, acc ++ [e.1]) := by
          unfold record_step
          rw [if_pos (by rw [hconf]; exact Nat.lt_succ_self _)]
        rw [hstep]
        apply ih
        · intro a ha
          rw [hlast]
          rcases List.mem_append.mp ha with h | h
          · have := h1 a h; omega
          · have : a = e.1 := by simpa using h
            omega
        · rw [List.pairwise_append]
          refine ⟨h2, List.pairwise_singleton _ _, ?_⟩
          intro a ha b hb
          have hb' : b = e.1 := by simpa using hb
          subst hb'
          have := h1 a ha
          omega

/-- C3: any two confirmation timestamps of a run are at least `W` apart
(in chronological order); a signal increments `confirmed_accidents` only if
it is positive, the consecutive count has reached the threshold, and at
least `W` has elapsed since `last_confirmed_time`; and every confirmation
resets the count to 0 and updates `last_confirmed_time`. -/
theorem cooldown_separation (K : Nat) (W : Int) (hW : 0 ≤ W) (t0 : Int)
    (evs : List (Int × Bool)) :
    (run_confirm_times K W ⟨0, t0, 0, 0⟩ evs).2.Pairwise
      (fun a b => W ≤ b - a) ∧
    ∀ (t : Int) (b : Bool) (s : ConfState),
      (process_signal K W t b s).confirmed_accidents ≠
          s.confirmed_accidents →
        b = true ∧ K ≤ s.consecutive_detections + 1 ∧
        W ≤ t - s.last_confirmed_time ∧
        (process_signal K W t b s).consecutive_detections = 0 ∧
        (process_signal K W t b s).last_confirmed_time = t ∧
        (process_signal K W t b s).confirmed_accidents =
          s.confirmed_accidents + 1 := by
  constructor
  · exact (confirm_times_invariant K W hW evs ⟨0, t0, 0, 0⟩ []
      (by simp) (by simp)).2
  · intro t b s hne
    rcases process_signal_cases K W t b s with
      ⟨hconf, _⟩ | ⟨hconf, hlast, hcool, hb, hK, hzero⟩
    · exact absurd hconf hne
    · exact ⟨hb, hK, hcool, hzero, hlast, hconf⟩

theorem cooldown_separation_witness :
    ((0 : Int) ≤ 2) ∧
    ((run_confirm_times 1 2 ⟨0, 0, 0, 0⟩
        [(3, true), (4, true), (9, true)]).2.Pairwise
      (fun a b => (2 : Int) ≤ b - a) ∧
    ∀ (t : Int) (b : Bool) (s : ConfState),
      (process_signal 1 2 t b s).confirmed_accidents ≠
          s.confirmed_accidents →
        b = true ∧ 1 ≤ s.consecutive_detections + 1 ∧
        (2 : Int) ≤ t - s.last_confirmed_time ∧
        (process_signal 1 2 t b s).consecutive_detections = 0 ∧
        (process_signal 1 2 t b s).last_confirmed_time = t ∧
        (process_signal 1 2 t b s).confirmed_accidents =
          s.confirmed_accidents + 1) :=
  ⟨by decide, cooldown_separation 1 2 (by decide) 0 [(3, true), (4, true), (9, true)]⟩

/-- C1 fails on the code: with capacity `C = 3` and post-roll quota
`P = 2`, frames 1, 2 negative, frame 3 positive and confirming
(`K = 1`, `W = 0`, so the buffer holds `[1, 2, 3]` at confirmation) and
frames 4, 5 captured afterwards, the saved clip is `[2, 3, 4, 3, 4]` — the
ring buffer is read at save time, after post-roll frames already displaced
the pre-roll, and the confirming frame itself consumes one slot of the
post-roll quota — not the `[1, 2, 3, 4, 5]` the claim requires. -/
theorem evidence_clip_failing_input :
    (run_live 1 0 3 2
        [(1, 1, false), (2, 2, false), (3, 3, true), (4, 4, false),
          (5, 5, false)]
        initial_rec_state).saved_clips = [[2, 3, 4, 3, 4]] ∧
    (run_live 1 0 3 2
        [(1, 1, false), (2, 2, false), (3, 3, true), (4, 4, false),
          (5, 5, false)]
        initial_rec_state).saved_clips ≠ [[1, 2, 3, 4, 5]] := by
  constructor
  · rfl
  · decide

/-- C4 fails on the code: after `max_reconnect_attempts + 1 = 11`
consecutive open failures the session is still running with the counter at
11 — the loop has not terminated, because the counter is never compared
against the maximum — and a subsequent successful open still reaches
Streaming and resets the counter to 0. -/
theorem reconnect_cap_never_enforced :
    run_connect (List.replicate (max_reconnect_attempts + 1) false)
        ⟨0, true, false⟩ =
      ⟨max_reconnect_attempts + 1, true, false⟩ ∧
    run_connect (List.replicate (max_reconnect_attempts + 1) false ++ [true])
        ⟨0, true, false⟩ =
      ⟨0, true, true⟩ := by
  constructor
  · rfl
  · rfl

/-- C6 fails on the code: in the live loop with YOLO enabled, a single
captured frame (frame count 1, which is *not* on the every-`FRAME_SKIP`-th
cadence since `1 % 2 ≠ 0`) is nevertheless handed to the detector. -/
theorem live_sampling_counterexample :
    (live_loop true FRAME_BUFFER_MAXLEN [7] 0 []).1 = [1] ∧
    ¬ (1 % FRAME_SKIP = 0) := by
  constructor
  · rfl
  · decide

theorem live_loop_buffer (uy : Bool) (cap : Nat) :
    ∀ (fs : List Nat) (fc : Nat) (buf : List Nat),
      (live_loop uy cap fs fc buf).2 = ringRun cap buf fs := by
  intro fs
  induction fs with
  | nil => intro fc buf; rfl
  | cons f fs ih =>
      intro fc buf
      show (live_loop uy cap fs (fc + 1) (dequeAppend cap buf f)).2 = _
      rw [ih]
      rfl

theorem live_loop_detects (cap : Nat) :
    ∀ (fs : List Nat) (fc : Nat) (buf : List Nat),
      (live_loop true cap fs fc buf).1 =
        (List.range fs.length).map (fun i => fc + i + 1) := by
  intro fs
  induction fs with
  | nil => intro fc buf; rfl
  | cons f fs ih =>
      intro fc buf
      show (fc + 1) :: (live_loop true cap fs (fc + 1) _).1 = _
      rw [ih]
      simp only [List.length_cons]
      rw [List.range_succ_eq_map, List.map_cons, List.map_map]
      refine congrArg₂ _ (by omega) ?_
      apply List.map_congr_left
      intro i _
      simp only [Function.comp_apply]
      omega

theorem offline_loop_filter :
    ∀ (m fn : Nat),
      offline_loop m fn =
        ((List.range m).map (fun i => fn + i)).filter
          (fun i => i % FRAME_SKIP = 0) := by
  intro m
  induction m with
  | zero => intro fn; rfl
  | succ m ih =>
      intro fn
      show (if fn % FRAME_SKIP = 0 then [fn] else []) ++ offline_loop m (fn + 1)
          = _
      rw [ih, List.range_succ_eq_map, List.map_cons, List.map_map,
        List.filter_cons]
      have hmap : (List.range m).map ((fun i => fn + i) ∘ (· + 1)) =
          (List.range m).map (fun i => fn + 1 + i) := by
        apply List.map_congr_left
        intro i _
        simp only [Function.comp_apply]
        omega
      rw [hmap]
      simp only [Nat.add_zero]
      by_cases h : fn % FRAME_SKIP = 0
      · rw [if_pos h, if_pos (by simpa using h)]
        rfl
      · rw [if_neg h, if_neg (by simpa using h)]
        rfl

/-- C6 amended: in the live capture loop with YOLO enabled *every*
successfully read frame is handed to the detector — the invocation frame
counts are `1, …, n` with no every-`N`th sampling — and every frame is
pushed into the ring buffer; the every-`FRAME_SKIP`-th cadence exists only
in offline video-file processing, which samples exactly the frame numbers
divisible by `FRAME_SKIP`. -/
theorem live_every_frame_detected (cap : Nat) (fs : List Nat) :
    (live_loop true cap fs 0 []).1 =
      (List.range fs.length).map (fun i => i + 1) ∧
    (live_loop true cap fs 0 []).2 = ringRun cap [] fs ∧
    ∀ m : Nat, offline_loop m 0 =
      (List.range m).filter (fun i => i % FRAME_SKIP = 0) := by
  refine ⟨?_, live_loop_buffer true cap fs 0 [], ?_⟩
  · rw [live_loop_detects cap fs 0 []]
    apply List.map_congr_left
    intro i _
    omega
  · intro m
    rw [offline_loop_filter m 0]
    congr 1
    have : (List.range m).map (fun i => 0 + i) = (List.range m).map id := by
      apply List.map_congr_left
      intro i _
      simp
    rw [this, List.map_id]

theorem lookup_none_not_mem {β : Type} {m : List (Nat × β)} {cid : Nat}
    (h : m.lookup cid = none) : cid ∉ m.map Prod.fst := by
  induction m with
  | nil => simp
  | cons p m ih =>
      simp only [List.lookup] at h
      intro hmem
      rcases List.mem_cons.mp hmem with heq | hmem'
      · rw [heq] at h
        simp at h
      · by_cases hc : cid = p.1
        · rw [hc] at h; simp at h
        · have hbeq : (cid == p.1) = false := by
            simpa using hc
          rw [hbeq] at h
          exact ih h hmem'

theorem lookup_append_right {β : Type} {m : List (Nat × β)} {cid : Nat}
    (l₂ : List (Nat × β)) (h : m.lookup cid = none) :
    (m ++ l₂).lookup cid = l₂.lookup cid := by
  induction m with
  | nil => rfl
  | cons p m ih =>
      simp only [List.lookup] at h ⊢
      by_cases hc : cid = p.1
      · rw [hc] at h; simp at h
      · have hbeq : (cid == p.1) = false := by simpa using hc
        rw [hbeq] at h ⊢
        exact ih h

/-- C7: starting the same source twice from a registry in which it is not
yet active: the first call succeeds, registering — only after `start()` has
launched it — a running stream; the second call returns `false` and changes
nothing, and the active list contains the id exactly once. -/
theorem start_camera_twice (db : Nat → Option Nat)
    (m : List (Nat × StreamState)) (cid : Nat) (d : Nat)
    (hdb : db cid = some d) (hfree : m.lookup cid = none) :
    (start_camera db m cid).1 = true ∧
    (start_camera db m cid).2 = m ++ [(cid, ⟨true, false⟩)] ∧
    ((start_camera db m cid).2.lookup cid = some ⟨true, false⟩) ∧
    (start_camera db (start_camera db m cid).2 cid).1 = false ∧
    (start_camera db (start_camera db m cid).2 cid).2 =
      (start_camera db m cid).2 ∧
    (get_active_cameras (start_camera db m cid).2).count cid = 1 := by
  have h1 : start_camera db m cid = (true, m ++ [(cid, ⟨true, false⟩)]) := by
    unfold start_camera
    rw [hfree]
    show (if (none : Option StreamState).isSome = true then _ else _) = _
    rw [if_neg (by simp)]
    rw [hdb]
    rfl
  have hlook : (m ++ [(cid, (⟨true, false⟩ : StreamState))]).lookup cid =
      some ⟨true, false⟩ := by
    rw [lookup_append_right _ hfree]
    simp [List.lookup]
  have h2 : start_camera db (m ++ [(cid, ⟨true, false⟩)]) cid =
      (false, m ++ [(cid, ⟨true, false⟩)]) := by
    unfold start_camera
    rw [hlook]
    rfl
  refine ⟨by rw [h1], by rw [h1], by rw [h1]; exact hlook, ?_, ?_, ?_⟩
  · rw [h1, h2]
  · rw [h1, h2]
  · rw [h1]
    unfold get_active_cameras
    rw [List.map_append, List.count_append]
    have h0 : (m.map Prod.fst).count cid = 0 :=
      List.count_eq_zero.mpr (lookup_none_not_mem hfree)
    rw [h0]
    simp

theorem start_camera_twice_witness :
    ((fun _ : Nat => some 7) 1 = some 7 ∧
      ([] : List (Nat × StreamState)).lookup 1 = none) ∧
    ((start_camera (fun _ => some 7) [] 1).1 = true ∧
      (start_camera (fun _ => some 7) [] 1).2 = [] ++ [(1, ⟨true, false⟩)] ∧
      ((start_camera (fun _ => some 7) [] 1).2.lookup 1 =
        some ⟨true, false⟩) ∧
      (start_camera (fun _ => some 7)
          (start_camera (fun _ => some 7) [] 1).2 1).1 = false ∧
      (start_camera (fun _ => some 7)
          (start_camera (fun _ => some 7) [] 1).2 1).2 =
        (start_camera (fun _ => some 7) [] 1).2 ∧
      (get_active_cameras (start_camera (fun _ => some 7) [] 1).2).count 1
        = 1) :=
  ⟨⟨rfl, rfl⟩, start_camera_twice (fun _ => some 7) [] 1 7 rfl rfl⟩

/-- C8 fails on the code in one respect: `CameraStream.stop` has no
`return` statement, so on a session that is not running it returns `None`
rather than the boolean `False`. -/
theorem stop_returns_none_counterexample :
    (stream_stop ⟨false, false⟩).1 ≠ some false := by
  decide

/-- C8 amended: `stop_camera` on an inactive id returns `false`, raises no
fault and leaves the registry unchanged, and `CameraStream.stop` is
idempotent and error-free on a non-running session — it clears the running
flag and the handle and a second stop gives the same result — but its
return value is `None` (no boolean), not `false`. -/
theorem stop_idempotent (m : List (Nat × StreamState)) (cid : Nat)
    (hfree : m.lookup cid = none) :
    stop_camera m cid = (false, m) ∧
    ∀ s : StreamState,
      (stream_stop s).1 = none ∧
      (stream_stop s).2.is_running = false ∧
      stream_stop (stream_stop s).2 = stream_stop s := by
  constructor
  · unfold stop_camera
    rw [if_pos hfree]
  · intro s
    exact ⟨rfl, rfl, rfl⟩

theorem stop_idempotent_witness :
    (([] : List (Nat × StreamState)).lookup 3 = none) ∧
    (stop_camera [] 3 = (false, []) ∧
      ∀ s : StreamState,
        (stream_stop s).1 = none ∧
        (stream_stop s).2.is_running = false ∧
        stream_stop (stream_stop s).2 = stream_stop s) :=
  ⟨rfl, stop_idempotent [] 3 rfl⟩

/-- C9: a fault raised inside the detection computation is caught by
`detect_severe` and converted into a negative signal — `False`, confidence
`0.0`, the unmodified input frame, and no bounding box — for every frame
and every fault. -/
theorem detect_severe_fault_is_negative {Frame : Type}
    (plot : Frame → List Detection → Frame) (frame : Frame) (e : String) :
    detect_severe plot frame (Except.error e) = (false, 0, frame, none) :=
  rfl

theorem severe_fold_spec :
    ∀ (dets : List Detection) (t : Bool) (mc : ℚ) (b : Option (List ℚ)),
      (dets.foldl severe_fold (t, mc, b)).1 =
          (t || dets.any (fun d => d.cls == TARGET_CLASS)) ∧
      (∀ d ∈ dets, d.cls = TARGET_CLASS →
          d.conf ≤ (dets.foldl severe_fold (t, mc, b)).2.1) ∧
      mc ≤ (dets.foldl severe_fold (t, mc, b)).2.1 ∧
      (((dets.foldl severe_fold (t, mc, b)).2.1 = mc ∧
          (dets.foldl severe_fold (t, mc, b)).2.2 = b) ∨
        (∃ d ∈ dets, d.cls = TARGET_CLASS ∧
          d.conf = (dets.foldl severe_fold (t, mc, b)).2.1 ∧
          (dets.foldl severe_fold (t, mc, b)).2.2 = some d.box ∧
          mc < (dets.foldl severe_fold (t, mc, b)).2.1)) := by
  intro dets
  induction dets with
  | nil =>
      intro t mc b
      exact ⟨by simp, by simp, le_refl mc, Or.inl ⟨rfl, rfl⟩⟩
  | cons d rest ih =>
      intro t mc b
      by_cases hd : d.cls = TARGET_CLASS
      · by_cases hlt : mc < d.conf
        · have hstep : severe_fold (t, mc, b) d = (true, d.conf, some d.box) := by
            unfold severe_fold
            rw [if_pos hd, if_pos hlt]
          have hfold : (d :: rest).foldl severe_fold (t, mc, b) =
              rest.foldl severe_fold (true, d.conf, some d.box) := by
            rw [List.foldl_cons, hstep]
          obtain ⟨ih1, ih2, ih3, ih4⟩ := ih true d.conf (some d.box)
          rw [hfold]
          refine ⟨by simp [ih1, hd], ?_, le_of_lt (lt_of_lt_of_le hlt ih3), ?_⟩
          · intro d' hd' hcls
            rcases List.mem_cons.mp hd' with rfl | hmem
            · exact ih3
            · exact ih2 d' hmem hcls
          · rcases ih4 with ⟨heq, hbeq⟩ | ⟨d', hmem, hcls, hconf, hbeq, hlt'⟩
            · exact Or.inr ⟨d, List.mem_cons_self d rest, hd,
                heq.symm, hbeq, by rw [heq]; exact hlt⟩
            · exact Or.inr ⟨d', List.mem_cons_of_mem d hmem, hcls, hconf,
                hbeq, lt_trans hlt hlt'⟩
        · have hstep : severe_fold (t, mc, b) d = (true, mc, b) := by
            unfold severe_fold
            rw [if_pos hd, if_neg hlt]
          have hfold : (d :: rest).foldl severe_fold (t, mc, b) =
              rest.foldl severe_fold (true, mc, b) := by
            rw [List.foldl_cons, hstep]
          obtain ⟨ih1, ih2, ih3, ih4⟩ := ih true mc b
          rw [hfold]
          refine ⟨by simp [ih1, hd], ?_, ih3, ?_⟩
          · intro d' hd' hcls
            rcases List.mem_cons.mp hd' with rfl | hmem
            · exact le_trans (not_lt.mp hlt) ih3
            · exact ih2 d' hmem hcls
          · rcases ih4 with ⟨heq, hbeq⟩ | ⟨d', hmem, hcls, hconf, hbeq, hlt'⟩
            · exact Or.inl ⟨heq, hbeq⟩
            · exact Or.inr ⟨d', List.mem_cons_of_mem d hmem, hcls, hconf,
                hbeq, hlt'⟩
      · have hstep : severe_fold (t, mc, b) d = (t, mc, b) := by
          unfold severe_fold
          rw [if_neg hd]
        have hfold : (d :: rest).foldl severe_fold (t, mc, b) =
            rest.foldl severe_fold (t, mc, b) := by
          rw [List.foldl_cons, hstep]
        obtain ⟨ih1, ih2, ih3, ih4⟩ := ih t mc b
        rw [hfold]
        refine ⟨?_, ?_, ih3, ?_⟩
        · rw [ih1]
          have : (d.cls == TARGET_CLASS) = false := by simpa using hd
          simp [this]
        · intro d' hd' hcls
          rcases List.mem_cons.mp hd' with rfl | hmem
          · exact absurd hcls hd
          · exact ih2 d' hmem hcls
        · rcases ih4 with ⟨heq, hbeq⟩ | ⟨d', hmem, hcls, hconf, hbeq, hlt'⟩
          · exact Or.inl ⟨heq, hbeq⟩
          · exact Or.inr ⟨d', List.mem_cons_of_mem d hmem, hcls, hconf,
              hbeq, hlt'⟩

/-- C10: on a successful model invocation, `detect_severe` is positive iff
some reported detection has the target class; when positive, the returned
confidence is the maximum confidence over target-class detections and the
returned bbox is a box achieving it; when negative, it returns confidence
`0.0`, no bbox, and (a copy of) the input frame.  The hypothesis that
target-class confidences are positive reflects the `conf=0.5` threshold
passed to `model.predict`. -/
theorem detect_severe_spec {Frame : Type}
    (plot : Frame → List Detection → Frame) (frame : Frame)
    (dets : List Detection)
    (hpos : ∀ d ∈ dets, d.cls = TARGET_CLASS → 0 < d.conf) :
    ((detect_severe plot frame (Except.ok dets)).1 = true ↔
      ∃ d ∈ dets, d.cls = TARGET_CLASS) ∧
    ((detect_severe plot frame (Except.ok dets)).1 = true →
      (∀ d ∈ dets, d.cls = TARGET_CLASS →
        d.conf ≤ (detect_severe plot frame (Except.ok dets)).2.1) ∧
      ∃ d ∈ dets, d.cls = TARGET_CLASS ∧
        d.conf = (detect_severe plot frame (Except.ok dets)).2.1 ∧
        (detect_severe plot frame (Except.ok dets)).2.2.2 = some d.box) ∧
    ((detect_severe plot frame (Except.ok dets)).1 = false →
      (detect_severe plot frame (Except.ok dets)).2.1 = 0 ∧
      (detect_severe plot frame (Except.ok dets)).2.2.2 = none ∧
      (detect_severe plot frame (Except.ok dets)).2.2.1 = frame) := by
  obtain ⟨h1, h2, h3, h4⟩ := severe_fold_spec dets false 0 none
  refine ⟨?_, ?_, ?_⟩
  · show (dets.foldl severe_fold (false, 0, none)).1 = true ↔
      ∃ d ∈ dets, d.cls = TARGET_CLASS
    rw [h1]
    simp only [Bool.false_or, List.any_eq_true, beq_iff_eq]
  · intro hp
    have hp' : (dets.foldl severe_fold (false, 0, none)).1 = true := hp
    constructor
    · intro d hd hcls
      exact h2 d hd hcls
    · rcases h4 with ⟨heq, hbeq⟩ | ⟨d, hmem, hcls, hconf, hbox, _⟩
      · exfalso
        rw [h1] at hp'
        simp only [Bool.false_or, List.any_eq_true, beq_iff_eq] at hp'
        obtain ⟨d0, hd0, hcls0⟩ := hp'
        have hgt := hpos d0 hd0 hcls0
        have hle := h2 d0 hd0 hcls0
        rw [heq] at hle
        exact absurd hle (not_le.mpr hgt)
      · exact ⟨d, hmem, hcls, hconf, hbox⟩
  · intro hn
    have hn' : (dets.foldl severe_fold (false, 0, none)).1 = false := hn
    have hany : dets.any (fun d => d.cls == TARGET_CLASS) = false := by
      rw [h1] at hn'
      simpa using hn'
    rcases h4 with ⟨heq, hbeq⟩ | ⟨d, hmem, hcls, _, _, _⟩
    · refine ⟨heq, hbeq, ?_⟩
      show (if (dets.foldl severe_fold (false, 0, none)).1 = true
          then plot frame dets else frame) = frame
      rw [hn']
      simp
    · exfalso
      have hT : dets.any (fun d => d.cls == TARGET_CLASS) = true :=
        List.any_eq_true.mpr ⟨d, hmem, by simpa using hcls⟩
      rw [hany] at hT
      exact Bool.false_ne_true hT

theorem detect_severe_spec_witness :
    (∀ d ∈ [Detection.mk "severe" 1 [0, 0, 1, 1]],
        d.cls = TARGET_CLASS → 0 < d.conf) ∧
    (((detect_severe (fun (f : Nat) _ => f + 1) 0
          (Except.ok [Detection.mk "severe" 1 [0, 0, 1, 1]])).1 = true ↔
        ∃ d ∈ [Detection.mk "severe" 1 [0, 0, 1, 1]],
          d.cls = TARGET_CLASS) ∧
      ((detect_severe (fun (f : Nat) _ => f + 1) 0
          (Except.ok [Detection.mk "severe" 1 [0, 0, 1, 1]])).1 = true →
        (∀ d ∈ [Detection.mk "severe" 1 [0, 0, 1, 1]],
          d.cls = TARGET_CLASS →
            d.conf ≤ (detect_severe (fun (f : Nat) _ => f + 1) 0
              (Except.ok [Detection.mk "severe" 1 [0, 0, 1, 1]])).2.1) ∧
        ∃ d ∈ [Detection.mk "severe" 1 [0, 0, 1, 1]],
          d.cls = TARGET_CLASS ∧
            d.conf = (detect_severe (fun (f : Nat) _ => f + 1) 0
              (Except.ok [Detection.mk "severe" 1 [0, 0, 1, 1]])).2.1 ∧
            (detect_severe (fun (f : Nat) _ => f + 1) 0
              (Except.ok [Detection.mk "severe" 1 [0, 0, 1, 1]])).2.2.2
              = some d.box) ∧
      ((detect_severe (fun (f : Nat) _ => f + 1) 0
          (Except.ok [Detection.mk "severe" 1 [0, 0, 1, 1]])).1 = false →
        (detect_severe (fun (f : Nat) _ => f + 1) 0
          (Except.ok [Detection.mk "severe" 1 [0, 0, 1, 1]])).2.1 = 0 ∧
        (detect_severe (fun (f : Nat) _ => f + 1) 0
          (Except.ok [Detection.mk "severe" 1 [0, 0, 1, 1]])).2.2.2 = none ∧
        (detect_severe (fun (f : Nat) _ => f + 1) 0
          (Except.ok [Detection.mk "severe" 1 [0, 0, 1, 1]])).2.2.1 = 0)) :=
  ⟨by decide,
    detect_severe_spec (fun (f : Nat) _ => f + 1) 0
      [Detection.mk "severe" 1 [0, 0, 1, 1]] (by decide)⟩

end AccidentDetector
